import Mathlib

/-!
# AutoDiff: dual-number arithmetic of `SimpleAutoDiff.cpp` and `AutoDiff.cpp`

The two programs compute with `double`.  The embedding is generic in the
scalar type `α`: the arithmetic of `double` is whatever `+ - * /` and unary
minus the type `α` carries, and the functions of `<cmath>` are the fields of a
`Libm α` record.  Every definition of the two programs is therefore an ordinary
computable function, and a statement proved for all `α` holds for whatever
`double` arithmetic does.  `realLibm` is the reading of `<cmath>` over the real
numbers (exact arithmetic, no rounding, no NaN or infinity), used where a
statement speaks about real functions and their derivatives.
-/

/-- The functions of `<cmath>` (and the constant `M_PI`) the programs call. -/
structure Libm (α : Type) where
  /-- `std::sin` -/
  sin : α → α
  /-- `std::cos` -/
  cos : α → α
  /-- `std::sinh` -/
  sinh : α → α
  /-- `std::cosh` -/
  cosh : α → α
  /-- `std::log`, the natural logarithm -/
  log : α → α
  /-- `std::pow` -/
  pow : α → α → α
  /-- `std::exp` -/
  exp : α → α
  /-- `std::erf` -/
  erf : α → α
  /-- `std::sqrt` -/
  sqrt : α → α
  /-- `M_PI`, the constant of `<cmath>` (defined as `std::acos(-1.)` where absent) -/
  pi : α

/-- The error function over the reals, `erf x = 2/√π · ∫₀ˣ exp (-t²) dt`. -/
noncomputable def erfReal (x : ℝ) : ℝ :=
  2 / Real.sqrt Real.pi * ∫ t in (0 : ℝ)..x, Real.exp (-(t ^ 2))

/-- The functions of `<cmath>` read over the real numbers. -/
noncomputable def realLibm : Libm ℝ where
  sin := Real.sin
  cos := Real.cos
  sinh := Real.sinh
  cosh := Real.cosh
  log := Real.log
  pow := fun x y => x ^ y
  exp := Real.exp
  erf := erfReal
  sqrt := Real.sqrt
  pi := Real.pi

section Programs

variable {α : Type} [Add α] [Sub α] [Mul α] [Div α] [Neg α] [Zero α] [One α] [OfNat α 2]

/-! ## `SimpleAutoDiff.cpp`, namespace `SAD` -/

namespace SAD

/-- The class `SAD::ADV`: `val` is the value of the variable, `dval` its derivative. -/
structure ADV (α : Type) where
  val : α
  dval : α

/-- The constructor `ADV(double v = 0, double d = 0)` with both arguments given. -/
def ADV.ctor (v d : α) : ADV α := { val := v, dval := d }

/-- The constructor `ADV(double v = 0, double d = 0)` called with `v` alone. -/
def ADV.ctor1 (v : α) : ADV α := ADV.ctor v 0

/-- The constructor `ADV(double v = 0, double d = 0)` called without arguments (`ADV y;`). -/
def ADV.ctor0 : ADV α := ADV.ctor 0 0

/-- The operator `ADV::operator +`. -/
def ADV.add (self x : ADV α) : ADV α :=
  let y : ADV α := ADV.ctor0
  let y := { y with val := self.val + x.val }
  let y := { y with dval := self.dval + x.dval }
  y

/-- The operator `ADV::operator -`. -/
def ADV.sub (self x : ADV α) : ADV α :=
  let y : ADV α := ADV.ctor0
  let y := { y with val := self.val - x.val }
  let y := { y with dval := self.dval - x.dval }
  y

/-- The operator `ADV::operator *`. -/
def ADV.mul (self x : ADV α) : ADV α :=
  let y : ADV α := ADV.ctor0
  let y := { y with val := self.val * x.val }
  let y := { y with dval := self.dval * x.val + self.val * x.dval }
  y

/-- The function `SAD::sin`. -/
def sin (L : Libm α) (x : ADV α) : ADV α :=
  let y : ADV α := ADV.ctor0
  let y := { y with val := L.sin x.val }
  let y := { y with dval := L.cos x.val * x.dval }
  y

/-- The function `SAD::cos`. -/
def cos (L : Libm α) (x : ADV α) : ADV α :=
  let y : ADV α := ADV.ctor0
  let y := { y with val := L.cos x.val }
  let y := { y with dval := (-(L.sin x.val)) * x.dval }
  y

/-- The function `SAD::sinh`. -/
def sinh (L : Libm α) (x : ADV α) : ADV α :=
  let y : ADV α := ADV.ctor0
  let y := { y with val := L.sinh x.val }
  let y := { y with dval := L.cosh x.val * x.dval }
  y

/-- The function `SAD::cosh`. -/
def cosh (L : Libm α) (x : ADV α) : ADV α :=
  let y : ADV α := ADV.ctor0
  let y := { y with val := L.cosh x.val }
  let y := { y with dval := L.sinh x.val * x.dval }
  y

/-- The function `SAD::log`: logarithm of `x` to the base `base`. -/
def log (L : Libm α) (x : ADV α) (base : α) : ADV α :=
  let y : ADV α := ADV.ctor0
  let tmp := L.log base
  let y := { y with val := L.log x.val / tmp }
  let y := { y with dval := 1 / (tmp * x.val) }
  y

/-- The function `SAD::pow`. -/
def pow (L : Libm α) (x : ADV α) (powr : α) : ADV α :=
  let y : ADV α := ADV.ctor0
  let y := { y with val := L.pow x.val powr }
  let y := { y with dval := powr * L.pow x.val (powr - 1) }
  y

/-- The function `SAD::exp`. -/
def exp (L : Libm α) (x : ADV α) : ADV α :=
  let y : ADV α := ADV.ctor0
  let y := { y with val := L.exp x.val }
  let y := { y with dval := y.val }
  y

/-- The function `SAD::erf`. -/
def erf (L : Libm α) (x : ADV α) : ADV α :=
  let y : ADV α := ADV.ctor0
  let y := { y with val := L.erf x.val }
  let y := { y with dval := L.exp ((-1) * y.val * y.val) * 2 / L.sqrt L.pi }
  y

end SAD

/-! ## `AutoDiff.cpp`, namespace `AD` -/

namespace AD

/-- The class `AD::ADV`.  The class body declares `val` and `dval`; the
constructor and the operators also read and write `ldval` and `rdval`, which
are members here as well.  No constructor initialises `dval`: it is `none`
until a function assigns it. -/
structure ADV (α : Type) where
  val : α
  dval : Option α
  ldval : α
  rdval : α

/-- The constructor `ADV(double v = 0, double ld = 0, double rd = 0)` with all arguments given. -/
def ADV.ctor (v ld rd : α) : ADV α := { val := v, dval := none, ldval := ld, rdval := rd }

/-- The constructor called with `v` and `ld`, as in `x.emplace_back(PI,1)`. -/
def ADV.ctor2 (v ld : α) : ADV α := ADV.ctor v ld 0

/-- The constructor called without arguments (`ADV y;`). -/
def ADV.ctor0 : ADV α := ADV.ctor 0 0 0

/-- The operator `ADV::operator +`. -/
def ADV.add (self x : ADV α) : ADV α :=
  let y : ADV α := ADV.ctor0
  let y := { y with val := self.val + x.val }
  let y := { y with ldval := 1 }
  let y := { y with rdval := 1 }
  y

/-- The operator `ADV::operator -`. -/
def ADV.sub (self x : ADV α) : ADV α :=
  let y : ADV α := ADV.ctor0
  let y := { y with val := self.val - x.val }
  let y := { y with ldval := 1 }
  let y := { y with rdval := -1 }
  y

/-- The operator `ADV::operator *`. -/
def ADV.mul (self x : ADV α) : ADV α :=
  let y : ADV α := ADV.ctor0
  let y := { y with val := self.val * x.val }
  let y := { y with ldval := x.val }
  let y := { y with rdval := self.val }
  y

/-- The operator `ADV::operator /`. -/
def ADV.div (self x : ADV α) : ADV α :=
  let y : ADV α := ADV.ctor0
  let y := { y with val := self.val / x.val }
  let y := { y with ldval := 1 / x.val }
  let y := { y with rdval := (-1) / (x.val * x.val) }
  y

/-- The function `AD::sin`. -/
def sin (L : Libm α) (x : ADV α) : ADV α :=
  let y : ADV α := ADV.ctor0
  let y := { y with val := L.sin x.val }
  let y := { y with ldval := 0 }
  let y := { y with rdval := L.cos x.val }
  y

/-- The function `AD::cos`. -/
def cos (L : Libm α) (x : ADV α) : ADV α :=
  let y : ADV α := ADV.ctor0
  let y := { y with val := L.cos x.val }
  let y := { y with ldval := 0 }
  let y := { y with rdval := -(L.sin x.val) }
  y

/-- The function `AD::log`: logarithm of `x` to the base `base`. -/
def log (L : Libm α) (base : α) (x : ADV α) : ADV α :=
  let y : ADV α := ADV.ctor0
  let tmp := L.log base
  let y := { y with val := L.log x.val / tmp }
  let y := { y with ldval := 0 }
  let y := { y with rdval := 1 / (tmp * x.val) }
  y

/-- The function `AD::pow`. -/
def pow (L : Libm α) (x : ADV α) (powr : α) : ADV α :=
  let y : ADV α := ADV.ctor0
  let y := { y with val := L.pow x.val powr }
  let y := { y with dval := some (powr * L.pow x.val (powr - 1)) }
  y

/-- The function `AD::exp`. -/
def exp (L : Libm α) (x : ADV α) : ADV α :=
  let y : ADV α := ADV.ctor0
  let y := { y with val := L.exp x.val }
  let y := { y with dval := some y.val }
  y

end AD

/-! ## `main` of `SimpleAutoDiff.cpp` -/

namespace SimpleAutoDiff

/-- The local variables of `main`: the three entries of the vector `x` and the
values computed from them. -/
structure Locals (α : Type) where
  x0 : SAD.ADV α
  x1 : SAD.ADV α
  x2 : SAD.ADV α
  y1 : SAD.ADV α
  y2 : SAD.ADV α
  y3 : SAD.ADV α
  y4 : SAD.ADV α
  y5 : SAD.ADV α
  y6 : SAD.ADV α
  z1 : SAD.ADV α
  z2 : SAD.ADV α

/-- The function `main`, up to the point where it prints. -/
def main (L : Libm α) : Locals α :=
  let x0 : SAD.ADV α := SAD.ADV.ctor L.pi 1
  let x1 : SAD.ADV α := SAD.ADV.ctor 2 0
  let x2 : SAD.ADV α := SAD.ADV.ctor 1 0
  let y1 := SAD.exp L x0
  let y2 := SAD.pow L x0 2
  let y3 := x1.mul y1
  let y4 := x2.mul y2
  let y5 := x1.mul y2
  let y6 := x2.mul y1
  let z1 := y3.add y4
  let z2 := y6.sub y5
  { x0 := x0, x1 := x1, x2 := x2, y1 := y1, y2 := y2, y3 := y3, y4 := y4, y5 := y5, y6 := y6,
    z1 := z1, z2 := z2 }

end SimpleAutoDiff

/-! ## Expressions over the operations of `SAD` -/

namespace SAD

/-- An expression a caller composes from the operators and functions of `SAD`;
`var i` is the `i`-th dual value the caller constructed, and the base of `log`
and the exponent of `pow` are plain scalars. -/
inductive Expr (α : Type) where
  | var : ℕ → Expr α
  | add : Expr α → Expr α → Expr α
  | sub : Expr α → Expr α → Expr α
  | mul : Expr α → Expr α → Expr α
  | sin : Expr α → Expr α
  | cos : Expr α → Expr α
  | sinh : Expr α → Expr α
  | cosh : Expr α → Expr α
  | log : Expr α → α → Expr α
  | pow : Expr α → α → Expr α
  | exp : Expr α → Expr α
  | erf : Expr α → Expr α

/-- The expression evaluated with the program's operations on dual values. -/
def Expr.eval (L : Libm α) (env : ℕ → ADV α) : Expr α → ADV α
  | .var i => env i
  | .add a b => (a.eval L env).add (b.eval L env)
  | .sub a b => (a.eval L env).sub (b.eval L env)
  | .mul a b => (a.eval L env).mul (b.eval L env)
  | .sin a => SAD.sin L (a.eval L env)
  | .cos a => SAD.cos L (a.eval L env)
  | .sinh a => SAD.sinh L (a.eval L env)
  | .cosh a => SAD.cosh L (a.eval L env)
  | .log a base => SAD.log L (a.eval L env) base
  | .pow a powr => SAD.pow L (a.eval L env) powr
  | .exp a => SAD.exp L (a.eval L env)
  | .erf a => SAD.erf L (a.eval L env)

/-- The ordinary numeric evaluation of the expression on plain scalars. -/
def Expr.num (L : Libm α) (env : ℕ → α) : Expr α → α
  | .var i => env i
  | .add a b => a.num L env + b.num L env
  | .sub a b => a.num L env - b.num L env
  | .mul a b => a.num L env * b.num L env
  | .sin a => L.sin (a.num L env)
  | .cos a => L.cos (a.num L env)
  | .sinh a => L.sinh (a.num L env)
  | .cosh a => L.cosh (a.num L env)
  | .log a base => L.log (a.num L env) / L.log base
  | .pow a powr => L.pow (a.num L env) powr
  | .exp a => L.exp (a.num L env)
  | .erf a => L.erf (a.num L env)

/-- The expression uses `+ - *`, `sin`, `cos`, `sinh` and `cosh` only. -/
def Expr.linear : Expr α → Bool
  | .var _ => true
  | .add a b => a.linear && b.linear
  | .sub a b => a.linear && b.linear
  | .mul a b => a.linear && b.linear
  | .sin a => a.linear
  | .cos a => a.linear
  | .sinh a => a.linear
  | .cosh a => a.linear
  | .log _ _ => false
  | .pow _ _ => false
  | .exp _ => false
  | .erf _ => false

end SAD

end Programs

/-! ## Specification vocabulary -/

/-- The dual value `x` carries, at the seed point `t`, the value of the real
function `f` and its total derivative: `x = (f t, f' t)`. -/
def SAD.Tracks (f : ℝ → ℝ) (t : ℝ) (x : SAD.ADV ℝ) : Prop :=
  x.val = f t ∧ HasDerivAt f x.dval t

/-! ## Theorems -/

/-- C1. Product rule: for all dual values `a` and `b`, whatever the scalar
arithmetic, `a * b` has value `a.val * b.val` and derivative
`a.dval * b.val + a.val * b.dval`. -/
theorem SAD.ADV.mul_product_rule {α : Type} [Add α] [Mul α] [Zero α] (a b : SAD.ADV α) :
    (a.mul b).val = a.val * b.val ∧
      (a.mul b).dval = a.dval * b.val + a.val * b.dval :=
  ⟨rfl, rfl⟩

/-- C2. Sum and difference rule: for all dual values `a` and `b`,
`a + b = (a.val + b.val, a.dval + b.dval)` and
`a - b = (a.val - b.val, a.dval - b.dval)`. -/
theorem SAD.ADV.add_sub_rule {α : Type} [Add α] [Sub α] [Zero α] (a b : SAD.ADV α) :
    a.add b = { val := a.val + b.val, dval := a.dval + b.dval } ∧
      a.sub b = { val := a.val - b.val, dval := a.dval - b.dval } :=
  ⟨rfl, rfl⟩

/-- C3, refuted as stated.  The only division of the two programs is
`AD::ADV::operator /`.  At `a = 1` and `b = 2`, both operands carrying the
derivative `1` in every field, the quotient rule asks for `(1·2 − 1·1)/2² = 1/4`;
the result has `dval` unassigned, `ldval = 1/2` and `rdval = -1/4`. -/
theorem AD.ADV.div_not_quotient_rule :
    (AD.ADV.mk (2 : ℚ) (some 1) 1 1).val ≠ 0 ∧
      (AD.ADV.div (AD.ADV.mk (1 : ℚ) (some 1) 1 1) (AD.ADV.mk 2 (some 1) 1 1)).dval = none ∧
      (AD.ADV.div (AD.ADV.mk (1 : ℚ) (some 1) 1 1) (AD.ADV.mk 2 (some 1) 1 1)).ldval = 1 / 2 ∧
      (AD.ADV.div (AD.ADV.mk (1 : ℚ) (some 1) 1 1) (AD.ADV.mk 2 (some 1) 1 1)).rdval = -1 / 4 ∧
      ((1 : ℚ) * 2 - 1 * 1) / 2 ^ 2 = 1 / 4 ∧
      (AD.ADV.div (AD.ADV.mk (1 : ℚ) (some 1) 1 1) (AD.ADV.mk 2 (some 1) 1 1)).dval
        ≠ some (((1 : ℚ) * 2 - 1 * 1) / 2 ^ 2) ∧
      (AD.ADV.div (AD.ADV.mk (1 : ℚ) (some 1) 1 1) (AD.ADV.mk 2 (some 1) 1 1)).ldval
        ≠ ((1 : ℚ) * 2 - 1 * 1) / 2 ^ 2 ∧
      (AD.ADV.div (AD.ADV.mk (1 : ℚ) (some 1) 1 1) (AD.ADV.mk 2 (some 1) 1 1)).rdval
        ≠ ((1 : ℚ) * 2 - 1 * 1) / 2 ^ 2 := by
  refine ⟨by norm_num, rfl, ?_, ?_, by norm_num, ?_, ?_, ?_⟩
  · norm_num [AD.ADV.div]
  · norm_num [AD.ADV.div]
  · exact fun h => Option.noConfusion h
  · norm_num [AD.ADV.div]
  · norm_num [AD.ADV.div]

/-- C3, amended.  The first variant's division returns, for all `a` and `b`,
the value `a.val / b.val` and, as `ldval`, the left local sensitivity
`1 / b.val`; it assigns no total derivative (`dval` stays unassigned). -/
theorem AD.ADV.div_val_ldval {α : Type} [Mul α] [Div α] [Neg α] [Zero α] [One α]
    (a b : AD.ADV α) :
    (a.div b).val = a.val / b.val ∧ (a.div b).ldval = 1 / b.val ∧ (a.div b).dval = none :=
  ⟨rfl, rfl, rfl⟩

/-- C4. Chain rule for `sin`, `cos`, `sinh` and `cosh`: for every dual value `x`
and whatever `<cmath>` computes, `sin x = (sin x.val, cos x.val * x.dval)`,
`cos x = (cos x.val, -sin x.val * x.dval)`,
`sinh x = (sinh x.val, cosh x.val * x.dval)` and
`cosh x = (cosh x.val, sinh x.val * x.dval)`. -/
theorem SAD.trig_chain_rule {α : Type} [Mul α] [Neg α] [Zero α] (L : Libm α) (x : SAD.ADV α) :
    SAD.sin L x = { val := L.sin x.val, dval := L.cos x.val * x.dval } ∧
      SAD.cos L x = { val := L.cos x.val, dval := -L.sin x.val * x.dval } ∧
      SAD.sinh L x = { val := L.sinh x.val, dval := L.cosh x.val * x.dval } ∧
      SAD.cosh L x = { val := L.cosh x.val, dval := L.sinh x.val * x.dval } :=
  ⟨rfl, rfl, rfl, rfl⟩

/-! ### Total derivatives: the operations that propagate the operand's derivative -/

theorem erfReal_zero : erfReal 0 = 0 := by
  simp [erfReal]

theorem SAD.Tracks.add {f g : ℝ → ℝ} {t : ℝ} {a b : SAD.ADV ℝ}
    (ha : SAD.Tracks f t a) (hb : SAD.Tracks g t b) :
    SAD.Tracks (fun s => f s + g s) t (a.add b) := by
  refine ⟨?_, ?_⟩
  · show a.val + b.val = f t + g t
    rw [ha.1, hb.1]
  · exact ha.2.add hb.2

theorem SAD.Tracks.sub {f g : ℝ → ℝ} {t : ℝ} {a b : SAD.ADV ℝ}
    (ha : SAD.Tracks f t a) (hb : SAD.Tracks g t b) :
    SAD.Tracks (fun s => f s - g s) t (a.sub b) := by
  refine ⟨?_, ?_⟩
  · show a.val - b.val = f t - g t
    rw [ha.1, hb.1]
  · exact ha.2.sub hb.2

theorem SAD.Tracks.mul {f g : ℝ → ℝ} {t : ℝ} {a b : SAD.ADV ℝ}
    (ha : SAD.Tracks f t a) (hb : SAD.Tracks g t b) :
    SAD.Tracks (fun s => f s * g s) t (a.mul b) := by
  refine ⟨?_, ?_⟩
  · show a.val * b.val = f t * g t
    rw [ha.1, hb.1]
  · have h := ha.2.mul hb.2
    rw [← ha.1, ← hb.1] at h
    exact h

theorem SAD.Tracks.sin {f : ℝ → ℝ} {t : ℝ} {x : SAD.ADV ℝ} (hx : SAD.Tracks f t x) :
    SAD.Tracks (fun s => Real.sin (f s)) t (SAD.sin realLibm x) := by
  refine ⟨?_, ?_⟩
  · show Real.sin x.val = Real.sin (f t)
    rw [hx.1]
  · have h := hx.2.sin
    rw [← hx.1] at h
    exact h

theorem SAD.Tracks.cos {f : ℝ → ℝ} {t : ℝ} {x : SAD.ADV ℝ} (hx : SAD.Tracks f t x) :
    SAD.Tracks (fun s => Real.cos (f s)) t (SAD.cos realLibm x) := by
  refine ⟨?_, ?_⟩
  · show Real.cos x.val = Real.cos (f t)
    rw [hx.1]
  · have h := hx.2.cos
    rw [← hx.1] at h
    exact h

theorem SAD.Tracks.sinh {f : ℝ → ℝ} {t : ℝ} {x : SAD.ADV ℝ} (hx : SAD.Tracks f t x) :
    SAD.Tracks (fun s => Real.sinh (f s)) t (SAD.sinh realLibm x) := by
  refine ⟨?_, ?_⟩
  · show Real.sinh x.val = Real.sinh (f t)
    rw [hx.1]
  · have h := hx.2.sinh
    rw [← hx.1] at h
    exact h

theorem SAD.Tracks.cosh {f : ℝ → ℝ} {t : ℝ} {x : SAD.ADV ℝ} (hx : SAD.Tracks f t x) :
    SAD.Tracks (fun s => Real.cosh (f s)) t (SAD.cosh realLibm x) := by
  refine ⟨?_, ?_⟩
  · show Real.cosh x.val = Real.cosh (f t)
    rw [hx.1]
  · have h := hx.2.cosh
    rw [← hx.1] at h
    exact h

/-! ### The functions that do not propagate the operand's derivative -/

/-- C5, evaluated on `x = (0, 2)`.  `exp x` has the value `exp 0` the claim
states, but its derivative is `1`, the value again, where the chain rule
`exp x.val * x.dval` gives `2`: the factor `x.dval` is not applied. -/
theorem SAD.exp_drops_operand_derivative :
    (SAD.exp realLibm (SAD.ADV.ctor 0 2)).val = Real.exp 0 ∧
      (SAD.exp realLibm (SAD.ADV.ctor 0 2)).dval = 1 ∧
      Real.exp (SAD.ADV.ctor (0 : ℝ) 2).val * (SAD.ADV.ctor (0 : ℝ) 2).dval = 2 ∧
      (SAD.exp realLibm (SAD.ADV.ctor 0 2)).dval
        ≠ Real.exp (SAD.ADV.ctor (0 : ℝ) 2).val * (SAD.ADV.ctor (0 : ℝ) 2).dval := by
  norm_num [SAD.exp, SAD.ADV.ctor, realLibm]

/-- C6, evaluated on `x = (1, 3)` and exponent `2`.  `pow x 2` has the value
`1 ^ 2` the claim states, but its derivative is `2 * 1 ^ (2 - 1) = 2`, where the
chain rule `p * x.val ^ (p - 1) * x.dval` gives `6`: the factor `x.dval` is not
applied. -/
theorem SAD.pow_drops_operand_derivative :
    (SAD.pow realLibm (SAD.ADV.ctor 1 3) 2).val = (1 : ℝ) ^ (2 : ℝ) ∧
      (SAD.pow realLibm (SAD.ADV.ctor 1 3) 2).dval = 2 ∧
      (2 : ℝ) * (SAD.ADV.ctor (1 : ℝ) 3).val ^ ((2 : ℝ) - 1) * (SAD.ADV.ctor (1 : ℝ) 3).dval = 6 ∧
      (SAD.pow realLibm (SAD.ADV.ctor 1 3) 2).dval
        ≠ (2 : ℝ) * (SAD.ADV.ctor (1 : ℝ) 3).val ^ ((2 : ℝ) - 1)
            * (SAD.ADV.ctor (1 : ℝ) 3).dval := by
  norm_num [SAD.pow, SAD.ADV.ctor, realLibm]

/-- C7, evaluated on `x = (1, 2)` and base `e`.  `log x e` has the value
`ln 1 / ln e` the claim states, but its derivative is `1 / (ln e * 1) = 1`,
where the chain rule `1 / (ln base * x.val) * x.dval` gives `2`: the factor
`x.dval` is not applied. -/
theorem SAD.log_drops_operand_derivative :
    (SAD.log realLibm (SAD.ADV.ctor 1 2) (Real.exp 1)).val
        = Real.log 1 / Real.log (Real.exp 1) ∧
      (SAD.log realLibm (SAD.ADV.ctor 1 2) (Real.exp 1)).dval = 1 ∧
      1 / (Real.log (Real.exp 1) * (SAD.ADV.ctor (1 : ℝ) 2).val)
          * (SAD.ADV.ctor (1 : ℝ) 2).dval = 2 ∧
      (SAD.log realLibm (SAD.ADV.ctor 1 2) (Real.exp 1)).dval
        ≠ 1 / (Real.log (Real.exp 1) * (SAD.ADV.ctor (1 : ℝ) 2).val)
            * (SAD.ADV.ctor (1 : ℝ) 2).dval := by
  norm_num [SAD.log, SAD.ADV.ctor, realLibm]

/-- C8, evaluated on the constant `x = (0, 0)`.  `erf x` has the value `erf 0`
the claim states, but its derivative is `exp (-1 * erf 0 * erf 0) * 2 / √π = 2/√π`,
where the chain rule `2/√π * exp (-x.val²) * x.dval` gives `0`: the factor
`x.dval` is not applied. -/
theorem SAD.erf_drops_operand_derivative :
    (SAD.erf realLibm (SAD.ADV.ctor 0 0)).val = erfReal 0 ∧
      (SAD.erf realLibm (SAD.ADV.ctor 0 0)).dval = 2 / Real.sqrt Real.pi ∧
      2 / Real.sqrt Real.pi * Real.exp (-(SAD.ADV.ctor (0 : ℝ) 0).val ^ 2)
          * (SAD.ADV.ctor (0 : ℝ) 0).dval = 0 ∧
      (SAD.erf realLibm (SAD.ADV.ctor 0 0)).dval
        ≠ 2 / Real.sqrt Real.pi * Real.exp (-(SAD.ADV.ctor (0 : ℝ) 0).val ^ 2)
            * (SAD.ADV.ctor (0 : ℝ) 0).dval := by
  have h : (0 : ℝ) < Real.sqrt Real.pi := Real.sqrt_pos.mpr Real.pi_pos
  simp [SAD.erf, SAD.ADV.ctor, realLibm, erfReal_zero, h.ne']

/-- C9, evaluated on `exp`.  The operand `(0, 2)` is `(f 0, f' 0)` for
`f t = 2 * t`; the composed function `h t = exp (2 * t)` has `h' 0 = 2`, and
`exp (0, 2)` carries the derivative `1`: the result is not `(h 0, h' 0)`. -/
theorem SAD.exp_not_total_derivative :
    SAD.Tracks (fun t => 2 * t) 0 (SAD.ADV.ctor 0 2) ∧
      HasDerivAt (fun t : ℝ => Real.exp (2 * t)) 2 0 ∧
      (SAD.exp realLibm (SAD.ADV.ctor 0 2)).dval = 1 ∧
      ¬ SAD.Tracks (fun t => Real.exp (2 * t)) 0 (SAD.exp realLibm (SAD.ADV.ctor 0 2)) := by
  have hf : HasDerivAt (fun t : ℝ => 2 * t) 2 0 := by
    simpa using (hasDerivAt_id (0 : ℝ)).const_mul 2
  have hh : HasDerivAt (fun t : ℝ => Real.exp (2 * t)) 2 0 := by
    simpa using hf.exp
  have hd : (SAD.exp realLibm (SAD.ADV.ctor 0 2)).dval = 1 := by
    simp [SAD.exp, SAD.ADV.ctor, realLibm]
  refine ⟨⟨by simp [SAD.ADV.ctor], hf⟩, hh, hd, ?_⟩
  rintro ⟨-, h⟩
  rw [hd] at h
  have h12 : (1 : ℝ) = 2 := h.unique hh
  norm_num at h12

/-- C10, evaluated on constants.  With the operand's derivative `0` (the
constructor called with the value alone), `exp (0)`, `pow (1) 2`, `log (1) e`
and `erf (0)` return the derivatives `1`, `2`, `1` and `2/√π`, none of them
`0`. -/
theorem SAD.constant_derivative_not_zero :
    (SAD.ADV.ctor1 (0 : ℝ)).dval = 0 ∧ (SAD.ADV.ctor1 (1 : ℝ)).dval = 0 ∧
      (SAD.exp realLibm (SAD.ADV.ctor1 0)).dval = 1 ∧
      (SAD.pow realLibm (SAD.ADV.ctor1 1) 2).dval = 2 ∧
      (SAD.log realLibm (SAD.ADV.ctor1 1) (Real.exp 1)).dval = 1 ∧
      (SAD.erf realLibm (SAD.ADV.ctor1 0)).dval = 2 / Real.sqrt Real.pi ∧
      (SAD.exp realLibm (SAD.ADV.ctor1 0)).dval ≠ 0 ∧
      (SAD.pow realLibm (SAD.ADV.ctor1 1) 2).dval ≠ 0 ∧
      (SAD.log realLibm (SAD.ADV.ctor1 1) (Real.exp 1)).dval ≠ 0 ∧
      (SAD.erf realLibm (SAD.ADV.ctor1 0)).dval ≠ 0 := by
  have h : (0 : ℝ) < Real.sqrt Real.pi := Real.sqrt_pos.mpr Real.pi_pos
  refine ⟨rfl, rfl, ?_, ?_, ?_, ?_, ?_, ?_, ?_, ?_⟩
  · norm_num [SAD.exp, SAD.ADV.ctor1, SAD.ADV.ctor, realLibm]
  · norm_num [SAD.pow, SAD.ADV.ctor1, SAD.ADV.ctor, realLibm]
  · norm_num [SAD.log, SAD.ADV.ctor1, SAD.ADV.ctor, realLibm]
  · simp [SAD.erf, SAD.ADV.ctor1, SAD.ADV.ctor, realLibm, erfReal_zero]
  · norm_num [SAD.exp, SAD.ADV.ctor1, SAD.ADV.ctor, realLibm]
  · norm_num [SAD.pow, SAD.ADV.ctor1, SAD.ADV.ctor, realLibm]
  · norm_num [SAD.log, SAD.ADV.ctor1, SAD.ADV.ctor, realLibm]
  · simp [SAD.erf, SAD.ADV.ctor1, SAD.ADV.ctor, realLibm, erfReal_zero, h.ne']

/-! ### The scenario of `main` -/

/-- C11, refuted as stated.  In the scenario of `main`, read over the reals,
`z1.dval` is not `2 * e^π`: it differs from it by `2 * π`, the derivative of the
summand `x2 * x0²`. -/
theorem SimpleAutoDiff.main_z1_dval_ne :
    (SimpleAutoDiff.main realLibm).z1.dval ≠ 2 * Real.exp Real.pi := by
  have hpi : (0 : ℝ) < Real.pi := Real.pi_pos
  simp [SimpleAutoDiff.main, SAD.ADV.add, SAD.ADV.mul, SAD.exp, SAD.pow, SAD.ADV.ctor,
    realLibm]
  norm_num
  exact hpi.ne'

/-- C11, amended.  In the scenario of `main`, read over the reals,
`z1.dval = 2 * e^π + 2 * π`, the derivative of `x1 * e^x0 + x2 * x0²` in `x0`
at `x0 = π`, `x1 = 2`, `x2 = 1`. -/
theorem SimpleAutoDiff.main_z1_dval :
    (SimpleAutoDiff.main realLibm).z1.dval = 2 * Real.exp Real.pi + 2 * Real.pi := by
  simp [SimpleAutoDiff.main, SAD.ADV.add, SAD.ADV.mul, SAD.exp, SAD.pow, SAD.ADV.ctor,
    realLibm]
  norm_num

/-- C12. In the scenario of `main`, read over the reals,
`z2.dval = e^π - 2 * (2 * π)`. -/
theorem SimpleAutoDiff.main_z2_dval :
    (SimpleAutoDiff.main realLibm).z2.dval = Real.exp Real.pi - 2 * (2 * Real.pi) := by
  simp [SimpleAutoDiff.main, SAD.ADV.sub, SAD.ADV.mul, SAD.exp, SAD.pow, SAD.ADV.ctor,
    realLibm]
  norm_num

/-- C13. In the scenario of `main`, read over the reals, `y1.val = e^π`,
`y2.val = π²`, `z1.val = 2 * e^π + π²` and `z2.val = e^π - 2 * π²`. -/
theorem SimpleAutoDiff.main_values :
    (SimpleAutoDiff.main realLibm).y1.val = Real.exp Real.pi ∧
      (SimpleAutoDiff.main realLibm).y2.val = Real.pi ^ 2 ∧
      (SimpleAutoDiff.main realLibm).z1.val = 2 * Real.exp Real.pi + Real.pi ^ 2 ∧
      (SimpleAutoDiff.main realLibm).z2.val = Real.exp Real.pi - 2 * Real.pi ^ 2 := by
  simp [SimpleAutoDiff.main, SAD.ADV.add, SAD.ADV.sub, SAD.ADV.mul, SAD.exp, SAD.pow,
    SAD.ADV.ctor, realLibm]

/-- C14. Construction: for all scalars `v` and `d`, `ADV(v, d)` has value `v`
and derivative `d`, and `ADV(v)` has value `v` and derivative `0`. -/
theorem SAD.ADV.ctor_fields {α : Type} [Zero α] (v d : α) :
    (SAD.ADV.ctor v d).val = v ∧ (SAD.ADV.ctor v d).dval = d ∧
      (SAD.ADV.ctor1 v).val = v ∧ (SAD.ADV.ctor1 v).dval = 0 :=
  ⟨rfl, rfl, rfl, rfl⟩

/-! ### The error function at `1` -/

theorem erfReal_one_pos : 0 < erfReal 1 := by
  have hs : (0 : ℝ) < Real.sqrt Real.pi := Real.sqrt_pos.mpr Real.pi_pos
  have hI : 0 < ∫ t in (0 : ℝ)..1, Real.exp (-(t ^ 2)) := by
    apply intervalIntegral.intervalIntegral_pos_of_pos
    · exact Continuous.intervalIntegrable (by continuity) _ _
    · intro t; exact Real.exp_pos _
    · norm_num
  unfold erfReal
  positivity

theorem erfReal_one_lt_one : erfReal 1 < 1 := by
  have hs : (0 : ℝ) < Real.sqrt Real.pi := Real.sqrt_pos.mpr Real.pi_pos
  have hle : (∫ t in (0 : ℝ)..1, Real.exp (-(t ^ 2))) ≤ ∫ t in (0 : ℝ)..1, (1 + t ^ 2)⁻¹ := by
    apply intervalIntegral.integral_mono_on (by norm_num)
    · exact Continuous.intervalIntegrable (by continuity) _ _
    · exact Continuous.intervalIntegrable
        (Continuous.inv₀ (by continuity) (fun t => by positivity)) _ _
    · intro t _
      rw [Real.exp_neg]
      apply inv_anti₀ (by positivity)
      linarith [Real.add_one_le_exp (t ^ 2)]
  rw [integral_inv_one_add_sq, Real.arctan_one, Real.arctan_zero, sub_zero] at hle
  have hs2 : Real.sqrt Real.pi < 2 := by
    rw [Real.sqrt_lt' (by norm_num)]
    linarith [Real.pi_lt_d2]
  have hsq : Real.sqrt Real.pi * Real.sqrt Real.pi = Real.pi := Real.mul_self_sqrt Real.pi_pos.le
  unfold erfReal
  calc 2 / Real.sqrt Real.pi * ∫ t in (0 : ℝ)..1, Real.exp (-(t ^ 2))
      ≤ 2 / Real.sqrt Real.pi * (Real.pi / 4) :=
        mul_le_mul_of_nonneg_left hle (by positivity)
    _ = Real.sqrt Real.pi / 2 := by
        field_simp
        nlinarith [hsq]
    _ < 1 := by linarith

/-- C15, evaluated on the seeded variable `x = (1, 1)`.  `erf x` carries the
derivative `exp (-1 * erf 1 * erf 1) * 2 / √π`: the exponent is taken at the
output `erf 1`, which lies strictly between `0` and `1`, so the derivative is
not `2/√π * exp (-1²)`. -/
theorem SAD.erf_exponent_at_output :
    (SAD.ADV.ctor (1 : ℝ) 1).dval = 1 ∧
      (SAD.erf realLibm (SAD.ADV.ctor 1 1)).dval
        = Real.exp (-1 * erfReal 1 * erfReal 1) * 2 / Real.sqrt Real.pi ∧
      (SAD.erf realLibm (SAD.ADV.ctor 1 1)).dval
        ≠ 2 / Real.sqrt Real.pi * Real.exp (-(SAD.ADV.ctor (1 : ℝ) 1).val ^ 2) := by
  have hs : (0 : ℝ) < Real.sqrt Real.pi := Real.sqrt_pos.mpr Real.pi_pos
  have hd : (SAD.erf realLibm (SAD.ADV.ctor 1 1)).dval
      = Real.exp (-1 * erfReal 1 * erfReal 1) * 2 / Real.sqrt Real.pi := rfl
  refine ⟨rfl, hd, ?_⟩
  rw [hd]
  intro h
  have hv : (SAD.ADV.ctor (1 : ℝ) 1).val = 1 := rfl
  rw [hv] at h
  field_simp at h
  have h2 : Real.exp (-(erfReal 1 * erfReal 1)) = Real.exp (-1) := by linarith
  have h3 := Real.exp_injective h2
  nlinarith [erfReal_one_pos, erfReal_one_lt_one]

/-! ### The first variant, `AutoDiff.cpp` -/

/-- C16, evaluated on `a = 3`, `b = 2`.  The quotient `a / b` has the partial
derivatives `1 / b = 1/2` in `a` and `-a / b² = -3/4` in `b`; the operator
stores `ldval = 1/2` and `rdval = -1 / (2 * 2) = -1/4`: the factor `a.val` is
missing from `rdval`. -/
theorem AD.ADV.div_rdval_lacks_numerator :
    (AD.ADV.ctor (2 : ℚ) 0 0).val ≠ 0 ∧
      (AD.ADV.div (AD.ADV.ctor (3 : ℚ) 0 0) (AD.ADV.ctor 2 0 0)).ldval = 1 / 2 ∧
      (AD.ADV.div (AD.ADV.ctor (3 : ℚ) 0 0) (AD.ADV.ctor 2 0 0)).rdval = -1 / 4 ∧
      -(AD.ADV.ctor (3 : ℚ) 0 0).val / (AD.ADV.ctor (2 : ℚ) 0 0).val ^ 2 = -3 / 4 ∧
      (AD.ADV.div (AD.ADV.ctor (3 : ℚ) 0 0) (AD.ADV.ctor 2 0 0)).rdval
        ≠ -(AD.ADV.ctor (3 : ℚ) 0 0).val / (AD.ADV.ctor (2 : ℚ) 0 0).val ^ 2 := by
  refine ⟨?_, ?_, ?_, ?_, ?_⟩ <;> norm_num [AD.ADV.div, AD.ADV.ctor]

/-- C17, refuted as stated.  On operands whose `dval` holds `2` and `3`,
`exp` at `0` stores the derivative `1`, not `exp 0 * 2`, and `pow` at `1` with
exponent `2` stores `2`, not `2 * 1 ^ (2 - 1) * 3`. -/
theorem AD.pow_exp_not_multiplied :
    (AD.exp realLibm (AD.ADV.mk 0 (some 2) 0 0)).dval = some 1 ∧
      (AD.exp realLibm (AD.ADV.mk 0 (some 2) 0 0)).dval ≠ some (Real.exp 0 * 2) ∧
      (AD.pow realLibm (AD.ADV.mk 1 (some 3) 0 0) 2).dval = some 2 ∧
      (AD.pow realLibm (AD.ADV.mk 1 (some 3) 0 0) 2).dval
        ≠ some ((2 : ℝ) * (1 : ℝ) ^ ((2 : ℝ) - 1) * 3) := by
  refine ⟨?_, ?_, ?_, ?_⟩ <;> norm_num [AD.exp, AD.pow, AD.ADV.ctor0, AD.ADV.ctor, realLibm]

/-- C17, amended.  For every `x` and exponent `p`, whatever the derivative
fields of `x` hold, `pow x p` stores `dval = p * x.val ^ (p - 1)` and `exp x`
stores `dval = exp x.val`. -/
theorem AD.pow_exp_dval {α : Type} [Sub α] [Mul α] [Zero α] [One α] (L : Libm α)
    (x : AD.ADV α) (p : α) :
    (AD.pow L x p).dval = some (p * L.pow x.val (p - 1)) ∧
      (AD.exp L x).dval = some (L.exp x.val) :=
  ⟨rfl, rfl⟩

/-! ### Expressions -/

/-- C18. Soundness of `+ - *`, `sin`, `cos`, `sinh`, `cosh`: if every leaf
`env i` of an expression built from these operations is `(f i t, (f i)' t)` for
a real function `f i` differentiable at `t`, then the dual value the program
computes is `(h t, h' t)`, where `h` is the expression read as a real function
of the seed variable. -/
theorem SAD.Expr.linear_tracks (e : SAD.Expr ℝ) (fs : ℕ → ℝ → ℝ) (t : ℝ)
    (env : ℕ → SAD.ADV ℝ) (hlin : e.linear = true)
    (henv : ∀ i, SAD.Tracks (fs i) t (env i)) :
    SAD.Tracks (fun s => e.num realLibm (fun i => fs i s)) t (e.eval realLibm env) := by
  induction e with
  | var i => exact henv i
  | add a b iha ihb =>
    simp only [SAD.Expr.linear, Bool.and_eq_true] at hlin
    exact SAD.Tracks.add (iha hlin.1) (ihb hlin.2)
  | sub a b iha ihb =>
    simp only [SAD.Expr.linear, Bool.and_eq_true] at hlin
    exact SAD.Tracks.sub (iha hlin.1) (ihb hlin.2)
  | mul a b iha ihb =>
    simp only [SAD.Expr.linear, Bool.and_eq_true] at hlin
    exact SAD.Tracks.mul (iha hlin.1) (ihb hlin.2)
  | sin a iha => exact SAD.Tracks.sin (iha hlin)
  | cos a iha => exact SAD.Tracks.cos (iha hlin)
  | sinh a iha => exact SAD.Tracks.sinh (iha hlin)
  | cosh a iha => exact SAD.Tracks.cosh (iha hlin)
  | log a base _ => simp [SAD.Expr.linear] at hlin
  | pow a powr _ => simp [SAD.Expr.linear] at hlin
  | exp a _ => simp [SAD.Expr.linear] at hlin
  | erf a _ => simp [SAD.Expr.linear] at hlin

/-- The expression `x * sin x` on the seeded variable `x = (0, 1)`, the
identity function at `t = 0`: the computed dual value is `(h 0, h' 0)` for
`h s = s * sin s`. -/
theorem SAD.Expr.linear_tracks_witness :
    (SAD.Expr.mul (.var 0) (.sin (.var 0)) : SAD.Expr ℝ).linear = true ∧
      (∀ _i : ℕ, SAD.Tracks (fun s => s) 0 (SAD.ADV.ctor 0 1)) ∧
      SAD.Tracks
        (fun s => (SAD.Expr.mul (.var 0) (.sin (.var 0)) : SAD.Expr ℝ).num realLibm (fun _ => s))
        0
        ((SAD.Expr.mul (.var 0) (.sin (.var 0)) : SAD.Expr ℝ).eval realLibm
          (fun _ => SAD.ADV.ctor 0 1)) :=
  ⟨rfl, fun _ => ⟨rfl, hasDerivAt_id 0⟩,
    SAD.Expr.linear_tracks (SAD.Expr.mul (.var 0) (.sin (.var 0))) (fun _ s => s) 0
      (fun _ => SAD.ADV.ctor 0 1) rfl (fun _ => ⟨rfl, hasDerivAt_id 0⟩)⟩

/-- C19. On the seeded variable `x = (v, 1)`, `exp x`, `pow x p` and
`log x base` carry the derivatives `exp v`, `p * v ^ (p - 1)` and
`1 / (ln base * v)`; and for every other derivative `d` of the operand the
derivative they return is the same. -/
theorem SAD.exp_pow_log_seeded {α : Type} [Sub α] [Mul α] [Div α] [Zero α] [One α]
    (L : Libm α) (v d p base : α) :
    ((SAD.exp L (SAD.ADV.ctor v 1)).dval = L.exp v ∧
        (SAD.pow L (SAD.ADV.ctor v 1) p).dval = p * L.pow v (p - 1) ∧
        (SAD.log L (SAD.ADV.ctor v 1) base).dval = 1 / (L.log base * v)) ∧
      ((SAD.exp L (SAD.ADV.ctor v d)).dval = (SAD.exp L (SAD.ADV.ctor v 1)).dval ∧
        (SAD.pow L (SAD.ADV.ctor v d) p).dval = (SAD.pow L (SAD.ADV.ctor v 1) p).dval ∧
        (SAD.log L (SAD.ADV.ctor v d) base).dval
          = (SAD.log L (SAD.ADV.ctor v 1) base).dval) :=
  ⟨⟨rfl, rfl, rfl⟩, rfl, rfl, rfl⟩

/-- C20. The value channel does not depend on the derivative channel: the
value of the dual value computed for an expression is the ordinary numeric
evaluation of the expression on the operands' values, so two runs whose
operands have the same values `vals` and any derivatives `ds`, `ds'` compute
the same value. -/
theorem SAD.Expr.eval_val {α : Type} [Add α] [Sub α] [Mul α] [Div α] [Neg α] [Zero α] [One α]
    [OfNat α 2] (L : Libm α) (e : SAD.Expr α) :
    (∀ env : ℕ → SAD.ADV α, (e.eval L env).val = e.num L (fun i => (env i).val)) ∧
      ∀ (vals ds ds' : ℕ → α),
        (e.eval L (fun i => SAD.ADV.ctor (vals i) (ds i))).val
          = (e.eval L (fun i => SAD.ADV.ctor (vals i) (ds' i))).val := by
  have key : ∀ env : ℕ → SAD.ADV α, (e.eval L env).val = e.num L (fun i => (env i).val) := by
    intro env
    induction e with
    | var i => rfl
    | add a b iha ihb =>
      show (a.eval L env).val + (b.eval L env).val = _
      rw [iha, ihb]; rfl
    | sub a b iha ihb =>
      show (a.eval L env).val - (b.eval L env).val = _
      rw [iha, ihb]; rfl
    | mul a b iha ihb =>
      show (a.eval L env).val * (b.eval L env).val = _
      rw [iha, ihb]; rfl
    | sin a iha => show L.sin (a.eval L env).val = _; rw [iha]; rfl
    | cos a iha => show L.cos (a.eval L env).val = _; rw [iha]; rfl
    | sinh a iha => show L.sinh (a.eval L env).val = _; rw [iha]; rfl
    | cosh a iha => show L.cosh (a.eval L env).val = _; rw [iha]; rfl
    | log a base iha => show L.log (a.eval L env).val / L.log base = _; rw [iha]; rfl
    | pow a powr iha => show L.pow (a.eval L env).val powr = _; rw [iha]; rfl
    | exp a iha => show L.exp (a.eval L env).val = _; rw [iha]; rfl
    | erf a iha => show L.erf (a.eval L env).val = _; rw [iha]; rfl
  refine ⟨key, fun vals ds ds' => ?_⟩
  rw [key, key]
  rfl
